import Mathlib

/-
Verification development for the GhostCoder prompt/response pipeline
(config.py, utils.py, file_processor.py, ai_client.py).

Modelling conventions:
* Python strings are modelled as `List Char` (`Str`); `str` injects Lean
  string literals.
* The filesystem is a partial map from path strings to file contents
  (`FS`).  A path that maps to `some c` exists and is readable with
  content `c`; a path that maps to `none` does not exist.  (Read errors
  on existing files are outside the model: every property below is
  stated for files that exist and are readable.)
* Standard input is a list of lines; an empty list means end-of-input
  (`input()` raising `EOFError`).
* The Ollama HTTP endpoint is an oracle `net : Nat → NetResult` indexed
  by the sequential call number.  `NetResult.reqError` covers both
  connection failures and non-2xx statuses (`requests.RequestException`,
  which `raise_for_status` also raises); `invalidJson` covers an
  unparsable body; `ok none` a JSON body without a "response" field.
* `sys.exit` is modelled by returning `Except.error`.
* Printing is ignored: only filesystem and stdin effects are modelled.
-/

abbrev Str := List Char

def str (s : String) : Str := s.data

/-- Python whitespace characters (`str.strip`, `\s`). -/
def isPySpace (c : Char) : Bool :=
  c = ' ' || c = '\t' || c = '\n' || c = '\r' || c = '\x0b' || c = '\x0c'

/-- Python `str.lower` (ASCII fragment). -/
def pyLower (s : Str) : Str := s.map Char.toLower

/-- Python `str.strip()`. -/
def pyStrip (s : Str) : Str :=
  ((s.dropWhile isPySpace).reverse.dropWhile isPySpace).reverse

/-- Python substring test `pat in s`. -/
def pyContains : Str → Str → Bool
  | s@(_ :: rest), pat => pat.isPrefixOf s || pyContains rest pat
  | [], pat => pat.isEmpty

/-- Python `s.replace(pat, rep, 1)`: replace the first occurrence only. -/
def replaceFirst : Str → Str → Str → Str
  | s@(c :: rest), pat, rep =>
    if pat.isPrefixOf s then rep ++ s.drop pat.length
    else c :: replaceFirst rest pat rep
  | [], _, _ => []

/-- Count of (possibly overlapping) occurrences of `pat` in `s`; used to
state "the content appears once" properties. -/
def occCount : Str → Str → Nat
  | s@(_ :: rest), pat => (if pat.isPrefixOf s then 1 else 0) + occCount rest pat
  | [], _ => 0

/-- Python `str.splitlines` (newline-only fragment), helper carrying the
current partial line reversed. -/
def splitLinesAux : Str → Str → List Str
  | [], acc => [acc.reverse]
  | c :: rest, acc =>
    if c = '\n' then
      acc.reverse :: (match rest with | [] => [] | _ :: _ => splitLinesAux rest [])
    else splitLinesAux rest (c :: acc)

/-- Python `str.splitlines` (newline-only fragment): no trailing empty
line for a trailing newline, `[]` for the empty string. -/
def splitLines : Str → List Str
  | [] => []
  | s => splitLinesAux s []

/-- `"\n".join(lines)`. -/
def joinNl (lines : List Str) : Str := List.intercalate (str "\n") lines

/-- `pathlib.Path(p).name`: final component (trailing slashes dropped). -/
def baseName (p : Str) : Str :=
  (((p.reverse).dropWhile (fun c => c = '/')).takeWhile (fun c => c ≠ '/')).reverse

-- --------------------------------------------------------------------
-- config.py
-- --------------------------------------------------------------------

/-- `config.MODIFICATION_WORDS`. -/
def MODIFICATION_WORDS : List Str :=
  [str "rewrite", str "fix", str "add", str "remove", str "delete", str "update",
   str "change", str "modify", str "refactor", str "improve", str "optimize",
   str "convert", str "replace", str "implement", str "create", str "write",
   str "generate", str "make", str "build"]

/-- `config.EXPLANATION_WORDS`. -/
def EXPLANATION_WORDS : List Str :=
  [str "explain", str "describe", str "what", str "how", str "why",
   str "analyze", str "review", str "understand", str "show me",
   str "tell me", str "look at"]

/-- Character class of `FILE_REF_RE`: `@` followed by one or more of
letters, digits, dot, underscore, slash, hyphen. -/
def isRefChar (c : Char) : Bool :=
  c.isAlphanum || c = '.' || c = '_' || c = '/' || c = '-'

/-- `\w` of `CODE_BLOCK_RE` (ASCII fragment). -/
def isWordChar (c : Char) : Bool := c.isAlphanum || c = '_'

/-- `FILE_REF_RE.finditer`/`findall`: left-to-right non-overlapping
matches of `@` followed by a maximal nonempty run of ref characters,
returning the captured group (without the `@`).  The accumulator holds
the reversed characters of the token being read after a `@`
(`none` = not inside a candidate match). -/
def findRefsAux : Str → Option Str → List Str
  | [], none => []
  | [], some acc => if acc.isEmpty then [] else [acc.reverse]
  | c :: rest, none =>
    if c = '@' then findRefsAux rest (some []) else findRefsAux rest none
  | c :: rest, some acc =>
    if isRefChar c then findRefsAux rest (some (c :: acc))
    else
      (if acc.isEmpty then [] else [acc.reverse]) ++
        (if c = '@' then findRefsAux rest (some []) else findRefsAux rest none)

/-- `FILE_REF_RE.findall(s)`. -/
def findRefs (s : Str) : List Str := findRefsAux s none

/-- `FILE_REF_RE.sub('', s)`: delete every match (the whole `@token`),
keep everything else.  Same scanning state as `findRefsAux`; a lone `@`
not followed by a ref character is kept. -/
def stripRefsAux : Str → Option Str → Str
  | [], none => []
  | [], some acc => if acc.isEmpty then ['@'] else []
  | c :: rest, none =>
    if c = '@' then stripRefsAux rest (some []) else c :: stripRefsAux rest none
  | c :: rest, some acc =>
    if isRefChar c then stripRefsAux rest (some (c :: acc))
    else
      (if acc.isEmpty then ['@'] else []) ++
        (if c = '@' then stripRefsAux rest (some []) else c :: stripRefsAux rest none)

/-- `FILE_REF_RE.sub('', s)`. -/
def stripRefs (s : Str) : Str := stripRefsAux s none

/-- `CODE_BLOCK_RE = ```(?:\w+)?\s*\n(.*?)``` ` (DOTALL): after the
optional word run, `\s*\n` consumes the longest whitespace prefix that
ends in a newline (greedy `\s*` backtracking to the last newline of the
run); fails if the whitespace run contains no newline. -/
def consumeWsNl (s : Str) : Option Str :=
  let ws := s.takeWhile isPySpace
  let k := ws.length - (ws.reverse.takeWhile (fun c => c ≠ '\n')).length
  if k = 0 then none else some (s.drop k)

/-- Lazy `(.*?)` followed by the literal closing fence: shortest capture
up to the next occurrence of three backticks; `none` if unterminated.
Returns the capture and the remainder after the closing fence. -/
def findClose : Str → Option (Str × Str)
  | [] => none
  | c :: rest =>
    if (str "```").isPrefixOf (c :: rest) then some ([], (c :: rest).drop 3)
    else
      match findClose rest with
      | some (cap, r) => some (c :: cap, r)
      | none => none

/-- Attempt the full `CODE_BLOCK_RE` match at the current position;
on success return the capture and the remainder after the match. -/
def matchBlockAt (s : Str) : Option (Str × Str) :=
  if (str "```").isPrefixOf s then
    let t := s.drop 3
    let t2 := t.drop (t.takeWhile isWordChar).length
    match consumeWsNl t2 with
    | some t3 => findClose t3
    | none => none
  else none

/-- `CODE_BLOCK_RE.findall`: scan left to right, attempting a match at
each position; on success continue after the match, otherwise advance
one character.  Fuelled by the input length, which suffices: every
step consumes at least one character (a successful match consumes at
least the six fence characters). -/
def codeBlocksAux : Nat → Str → List Str
  | 0, _ => []
  | _ + 1, [] => []
  | fuel + 1, c :: rest =>
    match matchBlockAt (c :: rest) with
    | some (cap, r) => cap :: codeBlocksAux fuel r
    | none => codeBlocksAux fuel rest

/-- `CODE_BLOCK_RE.findall(s)`. -/
def codeBlocks (s : Str) : List Str := codeBlocksAux s.length s

-- --------------------------------------------------------------------
-- utils.py
-- --------------------------------------------------------------------

/-- `utils.is_modification_request`. -/
def is_modification_request (prompt : Str) : Bool :=
  let lower := pyLower prompt
  if EXPLANATION_WORDS.any (fun w => pyContains lower w) then false
  else MODIFICATION_WORDS.any (fun w => pyContains lower w)

-- --------------------------------------------------------------------
-- Filesystem / world model
-- --------------------------------------------------------------------

/-- Filesystem: partial map from path strings to contents. -/
abbrev FS := Str → Option Str

/-- `path.write_text(content)`. -/
def fsWrite (fs : FS) (path content : Str) : FS :=
  fun n => if n = path then some content else fs n

/-- Process state touched by the pipeline: the filesystem and the
pending standard-input lines (`[]` = end of input). -/
structure World where
  fs : FS
  stdin : List Str

/-- Outcome of one HTTP round trip to the generation endpoint.
`reqError` covers connection failures and non-2xx statuses;
`invalidJson` an unparsable body; `ok none` a body without a
`response` field; `ok (some t)` a body with response text `t`. -/
inductive NetResult
  | reqError
  | invalidJson
  | ok (resp : Option Str)
deriving DecidableEq

/-- The conditions under which one request/parse round fails
(connection error, bad status, bad JSON, missing or empty text). -/
def netFails : NetResult → Bool
  | .reqError => true
  | .invalidJson => true
  | .ok none => true
  | .ok (some t) => t.isEmpty

/-- `sys.exit` reasons of the single-prompt path. -/
inductive ExitKind
  | connection
  | invalidJson
  | emptyResponse
deriving DecidableEq

-- --------------------------------------------------------------------
-- file_processor.py
-- --------------------------------------------------------------------

/-- The replacement text for one `@filename` token in
`process_file_references`: an embedded file block when the file
exists, the bracketed not-found marker otherwise. -/
def refReplacement (fs : FS) (filename : Str) : Str :=
  match fs filename with
  | some content =>
      str "\nFile: " ++ filename ++ str "\n```" ++ str "\n" ++ content ++ str "\n```"
  | none => str "[File \x27" ++ filename ++ str "\x27 not found]"

/-- The `for match in FILE_REF_RE.finditer(prompt)` loop body:
`processed = processed.replace("@" + filename, replacement, 1)`,
one iteration per match of the original prompt. -/
def applyRefs (fs : FS) : Str → List Str → Str
  | processed, [] => processed
  | processed, t :: rest =>
      applyRefs fs (replaceFirst processed (str "@" ++ t) (refReplacement fs t)) rest

/-- Instruction suffix appended when references were found and the
request is a modification. -/
def CRITICAL_SUFFIX : Str :=
  str "\n\nCRITICAL: You are being asked to modify code. You MUST respond with the complete updated file content in a code block. Do not just explain what to change - show the actual code with all changes applied. Provide the entire file content, not just the modified parts."

/-- Instruction suffix appended for a modification request without
references. -/
def IMPORTANT_SUFFIX : Str :=
  str "\n\nIMPORTANT: This is a code modification request. Please provide the complete implementation in code blocks. Show the actual code, not just explanations of what to do."

/-- `file_processor.process_file_references`: returns
`(processed_prompt, has_file_refs, is_modification)`. -/
def process_file_references (fs : FS) (prompt : Str) (force_code : Bool) :
    Str × Bool × Bool :=
  let is_mod := is_modification_request prompt || force_code
  let refs := findRefs prompt
  let has_refs := !refs.isEmpty
  let body := applyRefs fs prompt refs
  let processed :=
    if has_refs && is_mod then body ++ CRITICAL_SUFFIX
    else if is_mod && !has_refs then body ++ IMPORTANT_SUFFIX
    else body
  (processed, has_refs, is_mod)

/-- Inner fence-collection loop of `extract_code_for_file`: collect
lines until one starting with three backticks; `none` when the fence
is never closed (the `break` case). -/
def collectToFence : List Str → Option (List Str)
  | [] => none
  | l :: rest =>
    if (str "```").isPrefixOf l then some []
    else
      match collectToFence rest with
      | some body => some (l :: body)
      | none => none

/-- Forward search for the next line starting with three backticks
(from the current line onward); returns the lines after it. -/
def findFenceSuffix : List Str → Option (List Str)
  | [] => none
  | l :: rest => if (str "```").isPrefixOf l then some rest else findFenceSuffix rest

/-- The filename-anchored line scan of `extract_code_for_file`: for
each line containing the filename, search forward for a fence-opening
line and collect its body up to the closing fence; on an unterminated
fence, resume the outer loop at the next line containing the
filename. -/
def anchoredScan (filename : Str) : List Str → Option Str
  | [] => none
  | l :: rest =>
    if pyContains l filename then
      match findFenceSuffix (l :: rest) with
      | some after =>
        match collectToFence after with
        | some body => some (pyStrip (joinNl body))
        | none => anchoredScan filename rest
      | none => anchoredScan filename rest
    else anchoredScan filename rest

/-- `file_processor.extract_code_for_file`. -/
def extract_code_for_file (response : Str) (filename : Option Str) : Str :=
  match codeBlocks response with
  | [] => []
  | b :: _ =>
    match filename with
    | none => pyStrip b
    | some f =>
      match anchoredScan f (splitLines response) with
      | some code => code
      | none => pyStrip b

/-- The per-match loop of `process_multiple_file_references`: skip
missing files, otherwise build the focused single-file prompt (all
references stripped, the one file's token re-appended) and resolve it
with `process_file_references`. -/
def pmfTasks (fs : FS) (prompt : Str) (force_code : Bool) :
    List Str → List (Str × Str × Str)
  | [] => []
  | t :: rest =>
    if (fs t).isSome then
      let file_prompt := pyStrip (stripRefs prompt) ++ str " in the file @" ++ t
      (t, prompt, (process_file_references fs file_prompt force_code).1) ::
        pmfTasks fs prompt force_code rest
    else pmfTasks fs prompt force_code rest

/-- `file_processor.process_multiple_file_references`: a list of
`(file_path, original_prompt, processed_prompt)` tasks, one per
`FILE_REF_RE` match whose file exists. -/
def process_multiple_file_references (fs : FS) (prompt : Str) (force_code : Bool) :
    List (Str × Str × Str) :=
  pmfTasks fs prompt force_code (findRefs prompt)

/-- `file_processor.has_multiple_file_references`:
`len(FILE_REF_RE.findall(prompt)) > 1`. -/
def has_multiple_file_references (prompt : Str) : Bool :=
  decide (1 < (findRefs prompt).length)

-- --------------------------------------------------------------------
-- ai_client.py
-- --------------------------------------------------------------------

/-- `ai_client.show_diff_and_confirm`: printing the diff has no
modelled effect; with `auto_yes` approve without reading input;
otherwise read one line (end of input rejects) and approve iff the
stripped, lowered line starts with `y`. -/
def show_diff_and_confirm (w : World) (filename new_content : Str) (auto_yes : Bool) :
    Bool × World :=
  let _ := filename
  let _ := new_content
  if auto_yes then (true, w)
  else
    match w.stdin with
    | [] => (false, w)
    | line :: rest => ((str "y").isPrefixOf (pyLower (pyStrip line)), ⟨w.fs, rest⟩)

/-- `ai_client.intelligently_merge_changes` (the `prompt` argument is
unused in the source).  The float threshold
`len(new_code) > len(existing) * 0.8` is modelled exactly over the
rationals as `4 * len(existing) < 5 * len(new_code)`. -/
def intelligently_merge_changes (fs : FS) (file_path : Str) (new_code : Str) : Str :=
  match fs file_path with
  | none => new_code
  | some existing_content =>
    if (pyStrip new_code).length < 500 ∧ pyContains new_code (str "def ") = true then
      if (str "\n").isSuffixOf (pyStrip existing_content) then
        existing_content ++ new_code
      else existing_content ++ str "\n\n" ++ new_code
    else if 4 * existing_content.length < 5 * new_code.length then
      existing_content
    else existing_content ++ str "\n\n# Added by GhostCoder:\n" ++ new_code

/-- `ai_client.apply_single_file_changes`: merge the extracted code for
this file into it and write on confirmation. -/
def apply_single_file_changes (w : World) (response file_path prompt : Str)
    (auto_yes force_code : Bool) : World :=
  if !(is_modification_request prompt || force_code) then w
  else
    let code := extract_code_for_file response (some (baseName file_path))
    if code.isEmpty then w
    else
      let merged := intelligently_merge_changes w.fs file_path code
      let r := show_diff_and_confirm w file_path merged auto_yes
      if r.1 then ⟨fsWrite r.2.fs file_path merged, r.2.stdin⟩ else r.2

/-- The per-reference loop of `apply_code_changes`: extract the code
block for the reference and, on confirmation, overwrite the file with
it verbatim (no merge step on this path). -/
def accLoop (response : Str) (auto_yes : Bool) : World → List Str → World
  | w, [] => w
  | w, fname :: rest =>
    let code := extract_code_for_file response (some fname)
    if code.isEmpty then accLoop response auto_yes w rest
    else
      let r := show_diff_and_confirm w fname code auto_yes
      let w2 := if r.1 then ⟨fsWrite r.2.fs fname code, r.2.stdin⟩ else r.2
      accLoop response auto_yes w2 rest

/-- `ai_client.apply_code_changes` (the no-reference display-only tail
has no modelled effect). -/
def apply_code_changes (w : World) (response prompt : Str) (auto_yes force_code : Bool) :
    World :=
  if !(is_modification_request prompt || force_code) then w
  else accLoop response auto_yes w (findRefs prompt)

/-- The per-task loop of `process_multiple_files`: one HTTP call per
task (oracle indexed by call number); any request, JSON, or
empty-response failure skips just this task; otherwise apply the
response to this task's file when auto-apply is on. -/
def pmLoop (net : Nat → NetResult) (auto_apply auto_yes force_code : Bool) :
    Nat → World → List (Str × Str × Str) → Nat × World
  | k, w, [] => (k, w)
  | k, w, task :: rest =>
    match net k with
    | .ok (some resp) =>
      if resp.isEmpty then pmLoop net auto_apply auto_yes force_code (k + 1) w rest
      else
        let w2 :=
          if auto_apply then
            apply_single_file_changes w resp task.1 task.2.1 auto_yes force_code
          else w
        pmLoop net auto_apply auto_yes force_code (k + 1) w2 rest
    | _ => pmLoop net auto_apply auto_yes force_code (k + 1) w rest

/-- `ai_client.process_multiple_files`. -/
def process_multiple_files (net : Nat → NetResult) (k : Nat) (w : World) (prompt : Str)
    (auto_apply auto_yes force_code : Bool) : Nat × World :=
  pmLoop net auto_apply auto_yes force_code k w
    (process_multiple_file_references w.fs prompt force_code)

/-- The per-file loop of `process_context_files`: same failure
isolation as `pmLoop`; the focused prompt is built and sent (its text
lives only in the request payload, which the oracle abstracts), and
the original prompt is passed to the applier. -/
def pcLoop (net : Nat → NetResult) (prompt : Str) (auto_apply auto_yes force_code : Bool) :
    Nat → World → List Str → Nat × World
  | k, w, [] => (k, w)
  | k, w, fp :: rest =>
    match net k with
    | .ok (some resp) =>
      if resp.isEmpty then pcLoop net prompt auto_apply auto_yes force_code (k + 1) w rest
      else
        let w2 :=
          if auto_apply then apply_single_file_changes w resp fp prompt auto_yes force_code
          else w
        pcLoop net prompt auto_apply auto_yes force_code (k + 1) w2 rest
    | _ => pcLoop net prompt auto_apply auto_yes force_code (k + 1) w rest

/-- `ai_client.process_context_files`. -/
def process_context_files (net : Nat → NetResult) (detected : List Str) (k : Nat) (w : World)
    (prompt : Str) (auto_apply auto_yes force_code : Bool) : Nat × World :=
  pcLoop net prompt auto_apply auto_yes force_code k w detected

/-- `ai_client.send_prompt`.  `detect` abstracts
`context_detector.detect_context_files`; `sys.exit` is `Except.error`.
In single-prompt mode a request, JSON, or empty-response failure is
fatal; the fan-out and context paths handle failures per file inside
their loops. -/
def send_prompt (net : Nat → NetResult) (detect : Str → List Str) (k : Nat) (w : World)
    (prompt : Str) (auto_apply auto_yes force_code : Bool) :
    Except ExitKind (Nat × World) :=
  if has_multiple_file_references prompt then
    .ok (process_multiple_files net k w prompt auto_apply auto_yes force_code)
  else
    let pr := process_file_references w.fs prompt force_code
    if !pr.2.1 && pr.2.2 && !(detect prompt).isEmpty then
      .ok (process_context_files net (detect prompt) k w prompt auto_apply auto_yes force_code)
    else
      match net k with
      | .reqError => .error .connection
      | .invalidJson => .error .invalidJson
      | .ok none => .error .emptyResponse
      | .ok (some resp) =>
        if resp.isEmpty then .error .emptyResponse
        else
          let w2 :=
            if auto_apply then apply_code_changes w resp prompt auto_yes force_code else w
          .ok (k + 1, w2)

/-- The explanation-keyword test of `is_modification_request`
(the subterm `any(w in lower for w in EXPLANATION_WORDS)`). -/
def hasExplanationKeyword (prompt : Str) : Bool :=
  EXPLANATION_WORDS.any (fun w => pyContains (pyLower prompt) w)

/-- The modification-keyword test of `is_modification_request`
(the subterm `any(w in lower for w in MODIFICATION_WORDS)`). -/
def hasModificationKeyword (prompt : Str) : Bool :=
  MODIFICATION_WORDS.any (fun w => pyContains (pyLower prompt) w)

/-- The approval condition actually implemented for a manual
confirmation: the first pending stdin line, whitespace-stripped and
lowered, starts with `y`; end of input rejects. -/
def firstLineYes : List Str → Bool
  | [] => false
  | line :: _ => (str "y").isPrefixOf (pyLower (pyStrip line))


-- --------------------------------------------------------------------
-- Helper lemmas
-- --------------------------------------------------------------------

set_option maxRecDepth 10000

theorem dropWhile_head_not {α : Type} (p : α → Bool) :
    ∀ (l : List α) (c : α) (rest : List α), l.dropWhile p = c :: rest → p c = false := by
  intro l
  induction l with
  | nil => intro c rest h; simp [List.dropWhile] at h
  | cons d l ih =>
    intro c rest h
    by_cases hd : p d
    · rw [List.dropWhile_cons_of_pos hd] at h
      exact ih c rest h
    · rw [List.dropWhile_cons_of_neg hd] at h
      cases h
      simpa using hd

/-- A Python-stripped string never ends in a newline: the conditional
no-separator branch of `intelligently_merge_changes` can never fire. -/
theorem pyStrip_newline_suffix_false (s : Str) :
    (str "\n").isSuffixOf (pyStrip s) = false := by
  have hs : str "\n" = ['\n'] := rfl
  rw [pyStrip, List.isSuffixOf, hs, List.reverse_reverse]
  cases hd : (s.dropWhile isPySpace).reverse.dropWhile isPySpace with
  | nil => rfl
  | cons c r =>
    have hc : isPySpace c = false := dropWhile_head_not _ _ _ _ hd
    have hcn : c ≠ '\n' := by
      intro h; rw [h] at hc; simp [isPySpace] at hc
    simp [List.isPrefixOf, List.reverse_cons]
    intro h
    exact absurd h.symm hcn

theorem isPrefixOf_append_self (l m : List Char) : l.isPrefixOf (l ++ m) = true := by
  rw [List.isPrefixOf_iff_prefix]
  exact List.prefix_append l m

theorem isPrefixOf_self (l : List Char) : l.isPrefixOf l = true := by
  rw [List.isPrefixOf_iff_prefix]

-- --------------------------------------------------------------------
-- Claim theorems
-- --------------------------------------------------------------------

/-- Claim C3: with the force flag unset, any prompt containing an
explanation keyword (case-insensitive substring) is classified as
non-modification regardless of modification keywords; with the force
flag set the combined classification
`is_modification_request(prompt) or force_code` is true regardless of
keyword content; otherwise the prompt is a modification request iff it
contains some modification keyword. -/
theorem C3_theorem :
    (∀ (p : Str) (force : Bool), hasExplanationKeyword p = true → force = false →
        (is_modification_request p || force) = false) ∧
    (∀ (p : Str) (force : Bool), force = true →
        (is_modification_request p || force) = true) ∧
    (∀ p : Str, hasExplanationKeyword p = false →
        is_modification_request p = hasModificationKeyword p) := by
  refine ⟨?_, ?_, ?_⟩
  · intro p force hexp hf
    subst hf
    simp only [is_modification_request, Bool.or_false]
    rw [hasExplanationKeyword] at hexp
    simp [hexp]
  · intro p force hf
    subst hf
    simp
  · intro p hexp
    rw [hasExplanationKeyword] at hexp
    simp [is_modification_request, hexp, hasModificationKeyword]

/-- Witness for C3 at concrete inputs. -/
theorem C3_witness :
    (is_modification_request (str "explain how to fix this") || false) = false ∧
    (is_modification_request (str "some odd prompt") || true) = true ∧
    is_modification_request (str "fix the bug") = hasModificationKeyword (str "fix the bug") :=
  ⟨C3_theorem.1 (str "explain how to fix this") false (by decide) rfl,
   C3_theorem.2.1 (str "some odd prompt") true rfl,
   C3_theorem.2.2 (str "fix the bug") (by decide)⟩

/-- Claim C10: for an existing, readable target file, the merge policy
is total and its result always has the existing content as a prefix
(unchanged in the conservative branch, otherwise existing content plus
appended text only). -/
theorem C10_theorem (fs : FS) (file_path new_code existing : Str)
    (h : fs file_path = some existing) :
    existing.isPrefixOf (intelligently_merge_changes fs file_path new_code) = true := by
  simp only [intelligently_merge_changes, h]
  repeat' split
  all_goals first
    | exact isPrefixOf_self _
    | exact isPrefixOf_append_self _ _
    | (rw [List.append_assoc]; exact isPrefixOf_append_self _ _)

/-- Witness for C10: a concrete existing file, on the comment-marker
branch. -/
theorem C10_witness :
    (str "a = 1\nb = 2\nc = 3\nd = 4\n").isPrefixOf
      (intelligently_merge_changes
        (fun n => if n = str "t.py" then some (str "a = 1\nb = 2\nc = 3\nd = 4\n") else none)
        (str "t.py") (str "x = 9")) = true :=
  C10_theorem _ _ _ _ (by decide)

theorem replaceFirst_boundary (a t b rep : Str) (ha : '@' ∉ a) :
    replaceFirst (a ++ ('@' :: t) ++ b) ('@' :: t) rep = a ++ rep ++ b := by
  induction a with
  | nil =>
    simp only [List.nil_append]
    rw [List.cons_append, replaceFirst]
    have hpre : ('@' :: t).isPrefixOf ('@' :: (t ++ b)) = true := by
      rw [← List.cons_append]
      exact isPrefixOf_append_self _ _
    rw [if_pos hpre]
    simp only [List.length_cons, List.drop_succ_cons]
    rw [List.drop_left]
  | cons c a' ih =>
    have hc : ¬('@' = c) := by
      intro e
      exact ha (by rw [← e]; exact List.mem_cons_self _ _)
    have ha' : '@' ∉ a' := fun hm => ha (List.mem_cons_of_mem _ hm)
    have hpre : ∀ x : List Char, ('@' :: t).isPrefixOf (c :: x) = false := by
      intro x
      simp [List.isPrefixOf_cons₂, hc]
    simp only [List.cons_append, replaceFirst, hpre, Bool.false_eq_true, if_false]
    exact congrArg (c :: ·) (ih ha')

theorem findRefsAux_no_at : ∀ (s : Str), '@' ∉ s → findRefsAux s none = [] := by
  intro s
  induction s with
  | nil => intro _; rfl
  | cons c rest ih =>
    intro h
    have hc : ¬(c = '@') := by
      intro e
      exact h (by rw [← e]; exact List.mem_cons_self _ _)
    simp only [findRefsAux]
    rw [if_neg hc]
    exact ih (fun hm => h (List.mem_cons_of_mem _ hm))

theorem findRefsAux_append_no_at (a s : Str) (ha : '@' ∉ a) :
    findRefsAux (a ++ s) none = findRefsAux s none := by
  induction a with
  | nil => rfl
  | cons c a' ih =>
    have hc : ¬(c = '@') := by
      intro e
      exact ha (by rw [← e]; exact List.mem_cons_self _ _)
    simp only [List.cons_append, findRefsAux]
    rw [if_neg hc]
    exact ih (fun hm => ha (List.mem_cons_of_mem _ hm))

theorem findRefsAux_token (b : Str) (hb : ∀ d ∈ b.head?.toList, isRefChar d = false) :
    ∀ (t acc : Str), (∀ d ∈ t, isRefChar d = true) → acc.reverse ++ t ≠ [] →
      findRefsAux (t ++ b) (some acc) = (acc.reverse ++ t) :: findRefsAux b none := by
  intro t
  induction t with
  | nil =>
    intro acc _ hne
    simp only [List.append_nil] at hne ⊢
    have haccE : acc.isEmpty = false := by
      cases acc with
      | nil => simp at hne
      | cons x xs => rfl
    cases b with
    | nil =>
      simp only [findRefsAux, haccE]
      rfl
    | cons c rest =>
      have hcr : isRefChar c = false := hb c (by simp)
      simp only [findRefsAux, hcr, haccE]
      simp
  | cons d t' ih =>
    intro acc hall hne
    have hd : isRefChar d = true := hall d (List.mem_cons_self _ _)
    simp only [List.cons_append, findRefsAux, hd, if_true]
    show findRefsAux (t' ++ b) (some (d :: acc)) = (acc.reverse ++ d :: t') :: findRefsAux b none
    rw [ih (d :: acc) (fun e he => hall e (List.mem_cons_of_mem _ he)) (by simp)]
    simp [List.append_assoc]

theorem findRefs_structured (a t b : Str) (ha : '@' ∉ a) (ht : t ≠ [])
    (hall : ∀ d ∈ t, isRefChar d = true)
    (hb : ∀ d ∈ b.head?.toList, isRefChar d = false) :
    findRefs (a ++ ('@' :: t) ++ b) = t :: findRefsAux b none := by
  rw [findRefs, List.append_assoc, findRefsAux_append_no_at _ _ ha, List.cons_append]
  simp only [findRefsAux, if_pos rfl]
  rw [findRefsAux_token b hb t [] hall (by simpa using ht)]
  simp

/-- Claim C4 (amended): the reference loop runs once per regex match
and each iteration replaces the first remaining occurrence of the
literal `@token`, so when the same token occurs twice (and its
substitution text does not itself contain a `@`), both occurrences end
up replaced — later identical occurrences are not left as-is. -/
theorem C4_theorem (fs : FS) (force : Bool) (a b c t : Str)
    (ha : '@' ∉ a) (hb : '@' ∉ b) (hc : '@' ∉ c) (ht : t ≠ [])
    (hall : ∀ d ∈ t, isRefChar d = true)
    (hbh : ∀ d ∈ b.head?.toList, isRefChar d = false)
    (hch : ∀ d ∈ c.head?.toList, isRefChar d = false)
    (hrep : '@' ∉ refReplacement fs t) :
    (process_file_references fs (a ++ ('@' :: t) ++ b ++ ('@' :: t) ++ c) force).1 =
      (if is_modification_request (a ++ ('@' :: t) ++ b ++ ('@' :: t) ++ c) || force then
        a ++ refReplacement fs t ++ b ++ refReplacement fs t ++ c ++ CRITICAL_SUFFIX
      else a ++ refReplacement fs t ++ b ++ refReplacement fs t ++ c) := by
  have hhead : ∀ d ∈ ((b ++ ('@' :: t) ++ c).head?).toList, isRefChar d = false := by
    cases b with
    | nil =>
      intro d hd
      simp at hd
      subst hd
      decide
    | cons e b' =>
      intro d hd
      have hde : d = e := by simpa using hd
      subst hde
      exact hbh d (by simp)
  have hassoc : a ++ ('@' :: t) ++ b ++ ('@' :: t) ++ c
      = a ++ ('@' :: t) ++ (b ++ ('@' :: t) ++ c) := by
    simp [List.append_assoc]
  have hrefs : findRefs (a ++ ('@' :: t) ++ b ++ ('@' :: t) ++ c) = [t, t] := by
    rw [hassoc, findRefs_structured a t _ ha ht hall hhead]
    have h2 : findRefsAux (b ++ ('@' :: t) ++ c) none = [t] := by
      rw [List.append_assoc, findRefsAux_append_no_at b _ hb, List.cons_append]
      simp only [findRefsAux, if_pos rfl]
      rw [findRefsAux_token c hch t [] hall (by simpa using ht), findRefsAux_no_at c hc]
      simp
    rw [h2]
  have ha2 : '@' ∉ a ++ refReplacement fs t ++ b := by
    simp only [List.mem_append]
    rintro ((h | h) | h)
    · exact ha h
    · exact hrep h
    · exact hb h
  have hbody : applyRefs fs (a ++ ('@' :: t) ++ b ++ ('@' :: t) ++ c) [t, t] =
      a ++ refReplacement fs t ++ b ++ refReplacement fs t ++ c := by
    rw [applyRefs, applyRefs, applyRefs]
    rw [show (str "@" ++ t) = ('@' :: t) from rfl]
    have step1 : replaceFirst (a ++ ('@' :: t) ++ b ++ ('@' :: t) ++ c) ('@' :: t)
        (refReplacement fs t) = a ++ refReplacement fs t ++ (b ++ ('@' :: t) ++ c) := by
      rw [hassoc, replaceFirst_boundary a t _ _ ha]
    rw [step1]
    have hassoc2 : a ++ refReplacement fs t ++ (b ++ ('@' :: t) ++ c)
        = (a ++ refReplacement fs t ++ b) ++ ('@' :: t) ++ c := by
      simp [List.append_assoc]
    rw [hassoc2, replaceFirst_boundary _ t c _ ha2]
  simp only [process_file_references, hrefs, hbody]
  cases hm : is_modification_request (a ++ ('@' :: t) ++ b ++ ('@' :: t) ++ c) || force <;>
    simp [hm]

/-- Witness for C4: both occurrences of `@a` in `fix @a and @a!` are
replaced by the not-found marker. -/
theorem C4_witness :
    (process_file_references (fun _ => none)
        (str "fix " ++ ('@' :: str "a") ++ str " and " ++ ('@' :: str "a") ++ str "!") false).1 =
      (if is_modification_request
          (str "fix " ++ ('@' :: str "a") ++ str " and " ++ ('@' :: str "a") ++ str "!") || false
      then
        str "fix " ++ refReplacement (fun _ => none) (str "a") ++ str " and "
          ++ refReplacement (fun _ => none) (str "a") ++ str "!" ++ CRITICAL_SUFFIX
      else
        str "fix " ++ refReplacement (fun _ => none) (str "a") ++ str " and "
          ++ refReplacement (fun _ => none) (str "a") ++ str "!") :=
  C4_theorem (fun _ => none) false (str "fix ") (str " and ") (str "!") (str "a")
    (by decide) (by decide) (by decide) (by decide) (by decide) (by decide) (by decide)
    (by decide)

/-- Counterexample to C4 as stated: in `fix @a and @a` (file `a`
missing) the second identical occurrence is not left as-is — no `@a`
remains in the processed prompt, and both occurrences carry the
marker. -/
theorem C4_counterexample :
    (process_file_references (fun _ => none) (str "fix @a and @a") false).1 =
      str "fix [File \x27a\x27 not found] and [File \x27a\x27 not found]" ++ CRITICAL_SUFFIX ∧
    pyContains (process_file_references (fun _ => none) (str "fix @a and @a") false).1
      (str "@a") = false :=
  ⟨by decide, by decide⟩

/-- Claim C5 (amended): a prompt containing a single occurrence of the
token `@t` resolves totally (no exception): if the file exists its
content is embedded exactly once behind a `File: <name>` header and
fence, and if it is missing the token becomes the bracketed not-found
marker.  (With repeated identical tokens the substitution recurs once
per occurrence, see C4.) -/
theorem C5_theorem (fs : FS) (force : Bool) (a b t : Str)
    (ha : '@' ∉ a) (hb : '@' ∉ b) (ht : t ≠ [])
    (hall : ∀ d ∈ t, isRefChar d = true)
    (hbh : ∀ d ∈ b.head?.toList, isRefChar d = false) :
    (∀ content, fs t = some content →
      (process_file_references fs (a ++ ('@' :: t) ++ b) force).1 =
        (if is_modification_request (a ++ ('@' :: t) ++ b) || force then
          a ++ (str "\nFile: " ++ t ++ str "\n```" ++ str "\n" ++ content ++ str "\n```")
            ++ b ++ CRITICAL_SUFFIX
        else
          a ++ (str "\nFile: " ++ t ++ str "\n```" ++ str "\n" ++ content ++ str "\n```")
            ++ b)) ∧
    (fs t = none →
      (process_file_references fs (a ++ ('@' :: t) ++ b) force).1 =
        (if is_modification_request (a ++ ('@' :: t) ++ b) || force then
          a ++ (str "[File \x27" ++ t ++ str "\x27 not found]") ++ b ++ CRITICAL_SUFFIX
        else a ++ (str "[File \x27" ++ t ++ str "\x27 not found]") ++ b)) := by
  have hrefs : findRefs (a ++ ('@' :: t) ++ b) = [t] := by
    rw [findRefs_structured a t b ha ht hall hbh, findRefsAux_no_at b hb]
  constructor
  · intro content hsome
    have hbody : applyRefs fs (a ++ ('@' :: t) ++ b) [t] =
        a ++ (str "\nFile: " ++ t ++ str "\n```" ++ str "\n" ++ content ++ str "\n```") ++ b := by
      rw [applyRefs, applyRefs, show (str "@" ++ t) = ('@' :: t) from rfl]
      rw [show refReplacement fs t
            = str "\nFile: " ++ t ++ str "\n```" ++ str "\n" ++ content ++ str "\n```" by
          rw [refReplacement, hsome]]
      exact replaceFirst_boundary a t b _ ha
    simp only [process_file_references, hrefs, hbody]
    cases hm : is_modification_request (a ++ ('@' :: t) ++ b) || force <;> simp [hm]
  · intro hnone
    have hbody : applyRefs fs (a ++ ('@' :: t) ++ b) [t] =
        a ++ (str "[File \x27" ++ t ++ str "\x27 not found]") ++ b := by
      rw [applyRefs, applyRefs, show (str "@" ++ t) = ('@' :: t) from rfl]
      rw [show refReplacement fs t = str "[File \x27" ++ t ++ str "\x27 not found]" by
          rw [refReplacement, hnone]]
      exact replaceFirst_boundary a t b _ ha
    simp only [process_file_references, hrefs, hbody]
    cases hm : is_modification_request (a ++ ('@' :: t) ++ b) || force <;> simp [hm]

/-- Witness for C5: one `@a.py` reference to an existing file embeds
its content once. -/
theorem C5_witness :
    (process_file_references (fun n => if n = str "a.py" then some (str "A = 1") else none)
        (str "fix " ++ ('@' :: str "a.py") ++ str " now") false).1 =
      (if is_modification_request (str "fix " ++ ('@' :: str "a.py") ++ str " now") || false then
        str "fix " ++ (str "\nFile: " ++ str "a.py" ++ str "\n```" ++ str "\n" ++ str "A = 1"
          ++ str "\n```") ++ str " now" ++ CRITICAL_SUFFIX
      else
        str "fix " ++ (str "\nFile: " ++ str "a.py" ++ str "\n```" ++ str "\n" ++ str "A = 1"
          ++ str "\n```") ++ str " now") :=
  (C5_theorem (fun n => if n = str "a.py" then some (str "A = 1") else none) false
    (str "fix ") (str " now") (str "a.py") (by decide) (by decide) (by decide) (by decide)
    (by decide)).1 (str "A = 1") (by decide)

/-- Counterexample to C5 as stated: with the token `@b.py` occurring
twice and the file existing, the processed prompt embeds the file
content twice, not once. -/
theorem C5_counterexample :
    occCount (process_file_references
        (fun n => if n = str "b.py" then some (str "UNIQ = 1") else none)
        (str "fix @b.py and @b.py") false).1 (str "UNIQ") = 2 := by
  decide

/-- Claim C9 (code bug): the append branch of the merge policy always
inserts a `\n\n` separator: its no-separator branch tests
`existing_content.strip().endswith("\n")`, which is false for every
string (first conjunct), so even an existing content that already ends
in a blank line receives another separator (second conjunct), contrary
to the claimed conditional behavior; applying the branch twice appends
two copies of the same code with no deduplication (third conjunct). -/
theorem C9_theorem :
    (∀ s : Str, (str "\n").isSuffixOf (pyStrip s) = false) ∧
    intelligently_merge_changes
        (fun n => if n = str "m.py" then some (str "x = 1\n\n") else none) (str "m.py")
        (str "def g():\n    return 2")
      = str "x = 1\n\n" ++ str "\n\n" ++ str "def g():\n    return 2" ∧
    intelligently_merge_changes
        (fsWrite (fun n => if n = str "m.py" then some (str "x = 1\n\n") else none)
          (str "m.py") (str "x = 1\n\n" ++ str "\n\n" ++ str "def g():\n    return 2"))
        (str "m.py") (str "def g():\n    return 2")
      = str "x = 1\n\n" ++ str "\n\n" ++ str "def g():\n    return 2" ++ str "\n\n"
          ++ str "def g():\n    return 2" :=
  ⟨pyStrip_newline_suffix_false, by decide, by decide⟩

theorem pmfTasks_eq_filterMap (fs : FS) (prompt : Str) (force : Bool) :
    ∀ ts : List Str, pmfTasks fs prompt force ts =
      ts.filterMap (fun t =>
        if (fs t).isSome then
          some (t, prompt, (process_file_references fs
            (pyStrip (stripRefs prompt) ++ str " in the file @" ++ t) force).1)
        else none) := by
  intro ts
  induction ts with
  | nil => rfl
  | cons t rest ih =>
    rw [pmfTasks]
    cases h : (fs t).isSome <;> simp [h, List.filterMap_cons, ih]

/-- Claim C6 (amended): `send_prompt` enters fan-out mode iff the
prompt contains more than one `@name` regex match, counted with
multiplicity (not distinct tokens); fan-out builds one task per match
whose file exists, the task prompt being the original prompt with all
`@name` tokens stripped and this one file's token re-appended, resolved
by the standard single-reference resolution. -/
theorem C6_theorem :
    (∀ p : Str, has_multiple_file_references p = true ↔ 1 < (findRefs p).length) ∧
    (∀ (fs : FS) (p : Str) (force : Bool),
      process_multiple_file_references fs p force =
        (findRefs p).filterMap (fun t =>
          if (fs t).isSome then
            some (t, p, (process_file_references fs
              (pyStrip (stripRefs p) ++ str " in the file @" ++ t) force).1)
          else none)) ∧
    (∀ (net : Nat → NetResult) (detect : Str → List Str) (k : Nat) (w : World) (p : Str)
        (aa ay fc : Bool), has_multiple_file_references p = true →
      send_prompt net detect k w p aa ay fc =
        .ok (process_multiple_files net k w p aa ay fc)) := by
  refine ⟨?_, ?_, ?_⟩
  · intro p
    simp [has_multiple_file_references]
  · intro fs p force
    exact pmfTasks_eq_filterMap fs p force (findRefs p)
  · intro net detect k w p aa ay fc h
    simp [send_prompt, h]

/-- Witness for C6 at a concrete two-reference prompt. -/
theorem C6_witness :
    (has_multiple_file_references (str "fix @a and @b") = true ↔
      1 < (findRefs (str "fix @a and @b")).length) ∧
    send_prompt (fun _ => NetResult.reqError) (fun _ => []) 0 ⟨fun _ => none, []⟩
        (str "fix @a and @b") true true false =
      .ok (process_multiple_files (fun _ => NetResult.reqError) 0 ⟨fun _ => none, []⟩
        (str "fix @a and @b") true true false) :=
  ⟨C6_theorem.1 (str "fix @a and @b"),
   C6_theorem.2.2 (fun _ => NetResult.reqError) (fun _ => []) 0 ⟨fun _ => none, []⟩
     (str "fix @a and @b") true true false (by decide)⟩

/-- Counterexample to C6 as stated: `fix @a and @a` has only one
distinct token, yet fan-out mode is entered (matches are counted with
multiplicity). -/
theorem C6_counterexample :
    has_multiple_file_references (str "fix @a and @a") = true ∧
    ((findRefs (str "fix @a and @a")).dedup).length = 1 :=
  ⟨by decide, by decide⟩

theorem anchoredScan_append_none (f : Str) (pre ls : List Str)
    (hpre : ∀ x ∈ pre, pyContains x f = false) :
    anchoredScan f (pre ++ ls) = anchoredScan f ls := by
  induction pre with
  | nil => rfl
  | cons l pre' ih =>
    have hl : pyContains l f = false := hpre l (List.mem_cons_self _ _)
    simp only [List.cons_append, anchoredScan, hl, Bool.false_eq_true, if_false]
    exact ih (fun x hx => hpre x (List.mem_cons_of_mem _ hx))

theorem findFenceSuffix_structured : ∀ (mid : List Str) (fl : Str) (after : List Str),
    (∀ x ∈ mid, (str "```").isPrefixOf x = false) → (str "```").isPrefixOf fl = true →
    findFenceSuffix (mid ++ fl :: after) = some after := by
  intro mid
  induction mid with
  | nil =>
    intro fl after _ hfl
    simp [findFenceSuffix, hfl]
  | cons m mid' ih =>
    intro fl after hmid hfl
    have hm : (str "```").isPrefixOf m = false := hmid m (List.mem_cons_self _ _)
    simp only [List.cons_append, findFenceSuffix, hm, Bool.false_eq_true, if_false]
    exact ih fl after (fun x hx => hmid x (List.mem_cons_of_mem _ hx)) hfl

theorem collectToFence_structured : ∀ (body : List Str) (cl : Str) (post : List Str),
    (∀ x ∈ body, (str "```").isPrefixOf x = false) → (str "```").isPrefixOf cl = true →
    collectToFence (body ++ cl :: post) = some body := by
  intro body
  induction body with
  | nil =>
    intro cl post _ hcl
    simp [collectToFence, hcl]
  | cons x body' ih =>
    intro cl post hbody hcl
    have hx : (str "```").isPrefixOf x = false := hbody x (List.mem_cons_self _ _)
    simp only [List.cons_append, collectToFence, hx, Bool.false_eq_true, if_false]
    have h2 := ih cl post (fun y hy => hbody y (List.mem_cons_of_mem _ hy)) hcl
    simp [h2]

theorem anchoredScan_structured (f : Str) (pre : List Str) (l : Str) (rest mid : List Str)
    (fl : Str) (body : List Str) (cl : Str) (post : List Str)
    (hpre : ∀ x ∈ pre, pyContains x f = false)
    (hl : pyContains l f = true)
    (hcons : l :: rest = mid ++ fl :: (body ++ cl :: post))
    (hmid : ∀ x ∈ mid, (str "```").isPrefixOf x = false)
    (hfl : (str "```").isPrefixOf fl = true)
    (hbody : ∀ x ∈ body, (str "```").isPrefixOf x = false)
    (hcl : (str "```").isPrefixOf cl = true) :
    anchoredScan f (pre ++ l :: rest) = some (pyStrip (joinNl body)) := by
  rw [anchoredScan_append_none f pre _ hpre]
  simp only [anchoredScan, hl, if_true]
  rw [hcons, findFenceSuffix_structured mid fl _ hmid hfl]
  have h2 := collectToFence_structured body cl post hbody hcl
  simp [h2]

/-- Claim C7: with no filename hint, extraction returns the trimmed
interior of the first fenced block (empty when there is none); with a
hint it returns the trimmed span between the first fence-opening line
at or after the first line containing the filename and the next
fence-closing line, falling back to the first block's trimmed interior
when no filename-anchored block is found. -/
theorem C7_theorem :
    (∀ r : Str, extract_code_for_file r none = pyStrip ((codeBlocks r).headD [])) ∧
    (∀ r f : Str, codeBlocks r = [] → extract_code_for_file r (some f) = []) ∧
    (∀ (r f b : Str) (bs : List Str), codeBlocks r = b :: bs →
      anchoredScan f (splitLines r) = none → extract_code_for_file r (some f) = pyStrip b) ∧
    (∀ (r f b : Str) (bs : List Str) (pre : List Str) (l : Str) (rest mid : List Str)
        (fl : Str) (body : List Str) (cl : Str) (post : List Str),
      codeBlocks r = b :: bs →
      splitLines r = pre ++ l :: rest →
      (∀ x ∈ pre, pyContains x f = false) → pyContains l f = true →
      l :: rest = mid ++ fl :: (body ++ cl :: post) →
      (∀ x ∈ mid, (str "```").isPrefixOf x = false) → (str "```").isPrefixOf fl = true →
      (∀ x ∈ body, (str "```").isPrefixOf x = false) → (str "```").isPrefixOf cl = true →
      extract_code_for_file r (some f) = pyStrip (joinNl body)) := by
  refine ⟨?_, ?_, ?_, ?_⟩
  · intro r
    cases h : codeBlocks r with
    | nil => simp [extract_code_for_file, h]; rfl
    | cons b bs => simp [extract_code_for_file, h]
  · intro r f h
    simp [extract_code_for_file, h]
  · intro r f b bs hblocks hanch
    simp [extract_code_for_file, hblocks, hanch]
  · intro r f b bs pre l rest mid fl body cl post hblocks hsplit hpre hl hcons hmid hfl
      hbody hcl
    have hanch : anchoredScan f (splitLines r) = some (pyStrip (joinNl body)) := by
      rw [hsplit]
      exact anchoredScan_structured f pre l rest mid fl body cl post hpre hl hcons hmid
        hfl hbody hcl
    simp [extract_code_for_file, hblocks, hanch]

/-- Witness for C7: a two-block response where the hint `b.py` selects
the second block, not the first. -/
theorem C7_witness :
    extract_code_for_file
        (str "For a.py:\n```\nA = 1\n```\nFor b.py:\n```\nB = 2\n```\n")
        (some (str "b.py")) = pyStrip (joinNl [str "B = 2"]) :=
  C7_theorem.2.2.2
    (str "For a.py:\n```\nA = 1\n```\nFor b.py:\n```\nB = 2\n```\n")
    (str "b.py") (str "A = 1\n") [str "B = 2\n"]
    [str "For a.py:", str "```", str "A = 1", str "```"]
    (str "For b.py:") [str "```", str "B = 2", str "```"]
    [str "For b.py:"] (str "```") [str "B = 2"] (str "```") []
    (by decide) (by decide) (by decide) (by decide) (by decide) (by decide) (by decide)
    (by decide) (by decide)

/-- Claim C8: in single-prompt mode a connection failure, non-2xx
status, unparsable body, or missing/empty response text terminates the
whole process; in fan-out mode the same failure on task K is caught:
the world is left unchanged, only task K is dropped, and the loop
continues with the remaining tasks, every task consuming exactly one
HTTP call regardless of earlier failures. -/
theorem C8_theorem :
    (∀ (net : Nat → NetResult) (detect : Str → List Str) (k : Nat) (w : World) (p : Str)
        (aa ay fc : Bool),
      has_multiple_file_references p = false → detect p = [] →
      netFails (net k) = true →
      ∃ e, send_prompt net detect k w p aa ay fc = .error e) ∧
    (∀ (net : Nat → NetResult) (aa ay fc : Bool) (k : Nat) (w : World)
        (task : Str × Str × Str) (rest : List (Str × Str × Str)),
      netFails (net k) = true →
      pmLoop net aa ay fc k w (task :: rest) = pmLoop net aa ay fc (k + 1) w rest) ∧
    (∀ (net : Nat → NetResult) (aa ay fc : Bool) (tasks : List (Str × Str × Str))
        (k : Nat) (w : World),
      (pmLoop net aa ay fc k w tasks).1 = k + tasks.length) := by
  refine ⟨?_, ?_, ?_⟩
  · intro net detect k w p aa ay fc hmf hdet hfail
    simp only [send_prompt]
    rw [if_neg (by simp [hmf])]
    rw [if_neg (by simp [hdet])]
    cases hn : net k with
    | reqError => exact ⟨.connection, rfl⟩
    | invalidJson => exact ⟨.invalidJson, rfl⟩
    | ok resp =>
      cases resp with
      | none => exact ⟨.emptyResponse, rfl⟩
      | some t =>
        rw [hn] at hfail
        simp only [netFails] at hfail
        exact ⟨.emptyResponse, by simp [hfail]⟩
  · intro net aa ay fc k w task rest hfail
    rw [pmLoop]
    cases hn : net k with
    | reqError => rfl
    | invalidJson => rfl
    | ok resp =>
      cases resp with
      | none => rfl
      | some t =>
        rw [hn] at hfail
        simp only [netFails] at hfail
        simp [hfail]
  · intro net aa ay fc tasks
    induction tasks with
    | nil => intro k w; simp [pmLoop]
    | cons task rest ih =>
      intro k w
      rw [pmLoop]
      cases hn : net k with
      | reqError => rw [ih]; simp [List.length_cons]; omega
      | invalidJson => rw [ih]; simp [List.length_cons]; omega
      | ok resp =>
        cases resp with
        | none => rw [ih]; simp [List.length_cons]; omega
        | some t =>
          show (if List.isEmpty t = true then pmLoop net aa ay fc (k + 1) w rest
            else pmLoop net aa ay fc (k + 1)
              (if aa = true then apply_single_file_changes w t task.1 task.2.1 ay fc else w)
              rest).1 = k + (task :: rest).length
          by_cases he : t.isEmpty = true
          · rw [if_pos he, ih]
            simp [List.length_cons]
            omega
          · rw [if_neg he, ih]
            simp [List.length_cons]
            omega

/-- Witness for C8: a dead endpoint is fatal for a single-prompt
request, is skipped per task in fan-out mode, and the loop still
counts one call per task. -/
theorem C8_witness :
    (∃ e, send_prompt (fun _ => NetResult.reqError) (fun _ => []) 0 ⟨fun _ => none, []⟩
        (str "fix stuff") true true false = .error e) ∧
    pmLoop (fun _ => NetResult.reqError) true true false 0 ⟨fun _ => none, []⟩
        [(str "a.py", str "p", str "pp"), (str "b.py", str "p", str "pp")] =
      pmLoop (fun _ => NetResult.reqError) true true false 1 ⟨fun _ => none, []⟩
        [(str "b.py", str "p", str "pp")] ∧
    (pmLoop (fun _ => NetResult.reqError) true true false 0 ⟨fun _ => none, []⟩
        [(str "a.py", str "p", str "pp"), (str "b.py", str "p", str "pp")]).1 = 0 + 2 :=
  ⟨C8_theorem.1 (fun _ => NetResult.reqError) (fun _ => []) 0 ⟨fun _ => none, []⟩
      (str "fix stuff") true true false (by decide) rfl rfl,
   C8_theorem.2.1 (fun _ => NetResult.reqError) true true false 0 ⟨fun _ => none, []⟩
      (str "a.py", str "p", str "pp") [(str "b.py", str "p", str "pp")] rfl,
   C8_theorem.2.2 (fun _ => NetResult.reqError) true true false
      [(str "a.py", str "p", str "pp"), (str "b.py", str "p", str "pp")] 0 ⟨fun _ => none, []⟩⟩

theorem show_diff_fs_eq (w : World) (f c : Str) (auto : Bool) :
    (show_diff_and_confirm w f c auto).2.fs = w.fs := by
  cases auto <;> cases hs : w.stdin <;> simp [show_diff_and_confirm, hs]

theorem accLoop_fs_unchanged (response : Str) :
    ∀ (refs : List Str) (w : World),
      (∀ l ∈ w.stdin, (str "y").isPrefixOf (pyLower (pyStrip l)) = false) →
      ∀ n, (accLoop response false w refs).fs n = w.fs n := by
  intro refs
  induction refs with
  | nil => intro w _ _; rfl
  | cons fname rest ih =>
    intro w h n
    simp only [accLoop]
    by_cases hc : (extract_code_for_file response (some fname)).isEmpty = true
    · rw [if_pos hc]
      exact ih w h n
    · rw [if_neg hc]
      cases hs : w.stdin with
      | nil =>
        have hr : show_diff_and_confirm w fname
            (extract_code_for_file response (some fname)) false = (false, w) := by
          simp [show_diff_and_confirm, hs]
        simp only [hr]
        exact ih w h n
      | cons l rest' =>
        have hl : (str "y").isPrefixOf (pyLower (pyStrip l)) = false :=
          h l (by rw [hs]; exact List.mem_cons_self _ _)
        have hr : show_diff_and_confirm w fname
            (extract_code_for_file response (some fname)) false
            = (false, ⟨w.fs, rest'⟩) := by
          simp [show_diff_and_confirm, hs, hl]
        simp only [hr]
        have h' : ∀ l' ∈ rest', (str "y").isPrefixOf (pyLower (pyStrip l')) = false :=
          fun l' hm => h l' (by rw [hs]; exact List.mem_cons_of_mem _ hm)
        exact ih ⟨w.fs, rest'⟩ h' n

/-- Claim C2 (amended): file writes in both appliers happen only after
`show_diff_and_confirm` returns true, which holds iff `auto_yes` is set
or the first stdin line, whitespace-stripped, starts with `y`
(case-insensitive); end of input or any other answer rejects, and on
rejection (indeed on any run with no approving line) the filesystem is
left unchanged; a write only ever touches the target path. -/
theorem C2_theorem :
    (∀ (w : World) (f nc : Str) (auto : Bool),
      (show_diff_and_confirm w f nc auto).1 = (auto || firstLineYes w.stdin)) ∧
    (∀ (w : World) (response path prompt : Str) (fc : Bool),
      firstLineYes w.stdin = false →
      ∀ n, (apply_single_file_changes w response path prompt false fc).fs n = w.fs n) ∧
    (∀ (w : World) (response prompt : Str) (fc : Bool),
      (∀ l ∈ w.stdin, (str "y").isPrefixOf (pyLower (pyStrip l)) = false) →
      ∀ n, (apply_code_changes w response prompt false fc).fs n = w.fs n) ∧
    (∀ (w : World) (response path prompt : Str) (auto fc : Bool) (n : Str),
      n ≠ path → (apply_single_file_changes w response path prompt auto fc).fs n = w.fs n) := by
  refine ⟨?_, ?_, ?_, ?_⟩
  · intro w f nc auto
    cases auto <;> cases hs : w.stdin <;> simp [show_diff_and_confirm, firstLineYes, hs]
  · intro w response path prompt fc hno n
    simp only [apply_single_file_changes]
    split
    · rfl
    · split
      · rfl
      · cases hs : w.stdin with
        | nil => simp [show_diff_and_confirm, hs]
        | cons l rest =>
          rw [hs] at hno
          simp only [firstLineYes] at hno
          simp [show_diff_and_confirm, hs, hno]
  · intro w response prompt fc h n
    simp only [apply_code_changes]
    split
    · rfl
    · exact accLoop_fs_unchanged response _ w h n
  · intro w response path prompt auto fc n hn
    simp only [apply_single_file_changes]
    split
    · rfl
    · split
      · rfl
      · by_cases hr : (show_diff_and_confirm w path
            (intelligently_merge_changes w.fs path
              (extract_code_for_file response (some (baseName path)))) auto).1 = true
        · rw [if_pos hr]
          show fsWrite _ path _ n = w.fs n
          rw [fsWrite, if_neg hn, show_diff_fs_eq]
        · rw [if_neg hr, show_diff_fs_eq]

/-- Witness for C2: auto-approval, and a rejected change leaving the
file untouched. -/
theorem C2_witness :
    (show_diff_and_confirm ⟨fun _ => none, []⟩ (str "f.py") (str "c") true).1 =
      (true || firstLineYes ([] : List Str)) ∧
    (apply_single_file_changes
        ⟨(fun n => if n = str "a.py" then some (str "old") else none), [str "no"]⟩
        (str "x\n```\ndef f():\n    y = 2\n```\n") (str "a.py") (str "fix it")
        false false).fs (str "a.py") = some (str "old") :=
  ⟨C2_theorem.1 ⟨fun _ => none, []⟩ (str "f.py") (str "c") true,
   by
     rw [C2_theorem.2.1
       ⟨(fun n => if n = str "a.py" then some (str "old") else none), [str "no"]⟩
       (str "x\n```\ndef f():\n    y = 2\n```\n") (str "a.py") (str "fix it") false
       (by decide) (str "a.py")]
     decide⟩

/-- Counterexample to C2 as stated: the line `" y"` does not start with
`y`, yet the change applier performs the write, because the code strips
whitespace before testing the first character. -/
theorem C2_counterexample :
    (apply_single_file_changes
        ⟨(fun n => if n = str "a.py" then some (str "old = 0\n") else none), [str " y"]⟩
        (str "ok\n```\ndef f():\n    return 1\n```\n") (str "a.py") (str "fix it")
        false false).fs (str "a.py")
      = some (str "old = 0\n" ++ str "\n\n" ++ str "def f():\n    return 1") ∧
    (str "y").isPrefixOf (pyLower (str " y")) = false :=
  ⟨by decide, by decide⟩

/-- Claim C1 (amended): with auto-apply on, a modification prompt with
a single `@`-reference is handled by `apply_code_changes`, which writes
the extracted block verbatim (whole-file replacement, no merge); the
merge decision policy runs only in the per-file applier used by the
fan-out and context-detection paths, where a block under 500 characters
containing `def ` is appended to the existing content. -/
theorem C1_theorem :
    (∀ (fs : FS) (stdin : List Str) (response prompt t code : Str) (fc : Bool),
      (is_modification_request prompt || fc) = true →
      findRefs prompt = [t] →
      extract_code_for_file response (some t) = code →
      code ≠ [] →
      (apply_code_changes ⟨fs, stdin⟩ response prompt true fc).fs t = some code) ∧
    (∀ (w : World) (response path prompt existing : Str) (fc : Bool),
      (is_modification_request prompt || fc) = true →
      w.fs path = some existing →
      extract_code_for_file response (some (baseName path)) ≠ [] →
      (pyStrip (extract_code_for_file response (some (baseName path)))).length < 500 →
      pyContains (extract_code_for_file response (some (baseName path))) (str "def ") = true →
      (apply_single_file_changes w response path prompt true fc).fs path =
        some (existing ++ str "\n\n"
          ++ extract_code_for_file response (some (baseName path)))) := by
  constructor
  · intro fs stdin response prompt t code fc hmod hrefs hcode hne
    simp only [apply_code_changes, hmod, Bool.not_true, Bool.false_eq_true, if_false, hrefs]
    simp only [accLoop, hcode]
    rw [if_neg (by simp [hne])]
    have hconf : show_diff_and_confirm ⟨fs, stdin⟩ t code true = (true, ⟨fs, stdin⟩) := by
      simp [show_diff_and_confirm]
    simp only [hconf]
    show (accLoop response true ⟨fsWrite fs t code, stdin⟩ []).fs t = some code
    simp only [accLoop]
    rw [fsWrite, if_pos rfl]
  · intro w response path prompt existing fc hmod hex hne h500 hdef
    simp only [apply_single_file_changes, hmod, Bool.not_true, Bool.false_eq_true, if_false]
    rw [if_neg (by simp [hne])]
    have hmerge : intelligently_merge_changes w.fs path
        (extract_code_for_file response (some (baseName path))) =
        existing ++ str "\n\n" ++ extract_code_for_file response (some (baseName path)) := by
      have hnosuf := pyStrip_newline_suffix_false existing
      simp [intelligently_merge_changes, hex, h500, hdef, hnosuf]
    have hconf : show_diff_and_confirm w path
        (intelligently_merge_changes w.fs path
          (extract_code_for_file response (some (baseName path)))) true = (true, w) := by
      simp [show_diff_and_confirm]
    simp only [hconf, hmerge]
    show fsWrite w.fs path _ path = _
    rw [fsWrite, if_pos rfl, List.append_assoc]

/-- Witness for C1: the targeted path overwrites `z.py` with the block;
the per-file applier appends instead. -/
theorem C1_witness :
    (apply_code_changes ⟨(fun n => if n = str "z.py" then some (str "old") else none), []⟩
        (str "x\n```\ndef q():\n    return 3\n```\n") (str "fix @z.py") true false).fs
        (str "z.py") = some (str "def q():\n    return 3") ∧
    (apply_single_file_changes
        ⟨(fun n => if n = str "z.py" then some (str "old") else none), []⟩
        (str "x\n```\ndef q():\n    return 3\n```\n") (str "z.py") (str "fix it")
        true false).fs (str "z.py")
      = some (str "old" ++ str "\n\n" ++ str "def q():\n    return 3") :=
  ⟨C1_theorem.1 (fun n => if n = str "z.py" then some (str "old") else none) []
      (str "x\n```\ndef q():\n    return 3\n```\n") (str "fix @z.py") (str "z.py")
      (str "def q():\n    return 3") false (by decide) (by decide) (by decide) (by decide),
   by
     have h := C1_theorem.2
       ⟨(fun n => if n = str "z.py" then some (str "old") else none), []⟩
       (str "x\n```\ndef q():\n    return 3\n```\n") (str "z.py") (str "fix it")
       (str "old") false (by decide) (by decide) (by decide) (by decide) (by decide)
     rw [h]
     decide⟩

/-- Counterexample to C1 as stated: the spec's single-file scenario
(`fix the bug in @app.py`, ten-line file, short `def ` block, auto
apply and confirm) ends with the file containing the extracted block
verbatim — the existing ten lines are not a prefix of the written
content, so the single-reference path performed whole-file replacement,
not the merge policy's append. -/
theorem C1_counterexample :
    (send_prompt
        (fun _ => NetResult.ok
          (some (str "Here is a fix:\n```python\ndef helper():\n    return 1\n```\n")))
        (fun _ => []) 0
        ⟨(fun n => if n = str "app.py"
            then some (str "L1\nL2\nL3\nL4\nL5\nL6\nL7\nL8\nL9\nL10\n") else none), []⟩
        (str "fix the bug in @app.py") true true false).toOption.map
      (fun r => r.2.fs (str "app.py"))
      = some (some (str "def helper():\n    return 1")) ∧
    (str "L1\nL2\nL3\nL4\nL5\nL6\nL7\nL8\nL9\nL10\n").isPrefixOf
      (str "def helper():\n    return 1") = false :=
  ⟨by decide, by decide⟩
